import Mathlib

/-!
Shallow embedding of the `discover` package (pod.go, extras.go) in Lean 4.

Modelling conventions:
* Go `float64` values are modelled by `ℚ`; `math.Sqrt` is modelled by the
  computable `Rat.sqrt` (no claim proved below depends on the value of a
  square root, only on control flow around it).
* Go strings are `String` / `List Char` (byte-level reasoning is done on
  `List Char`).
* Go maps that the code only reads by key or iterates are modelled as
  association lists; `m[k] = v` is `mapInsert`, `m[k]` is `mapGet?`.
* JSON decoding (`json.Unmarshal`) is modelled at the decoded-value level:
  the remote pod's behaviour (`PodConn`) supplies either a decoded value or
  `none` for a decode error bringing the corresponding error branch.
* The network is modelled by `PodConn` (one connection behaviour per
  (host, port)); goroutine completion order is modelled by quantifying over
  the list of results handed to the merge loop.
-/

/-- One decoded JSON value, as produced by Go's `json.Unmarshal` into
`interface\x7b\x7d`: `nil`, bool, number, string, `[]interface\x7b\x7d`, or
`map[string]interface\x7b\x7d` (as an association list). -/
inductive JsonValue where
  | null : JsonValue
  | bool (b : Bool) : JsonValue
  | num (q : ℚ) : JsonValue
  | str (s : String) : JsonValue
  | arr (elems : List JsonValue) : JsonValue
  | obj (fields : List (String × JsonValue)) : JsonValue

/-- PlanetRecord from pod.go: name, 3-D coordinates, reporting host and port. -/
structure PlanetRecord where
  Name : String
  Coordinates : ℚ × ℚ × ℚ
  Host : String
  Port : Int
deriving DecidableEq

/-- PodResult from pod.go: the outcome of one (host, port) scan attempt. -/
structure PodResult where
  Host : String
  Port : Int
  Success : Bool
  Error : String
  Cubes : List String
  Planets : List PlanetRecord
deriving DecidableEq

/-- Planet from pod.go: the wire shape decoded from the planet response.
`Position` is a Go `map[string]float64`, which is `nil` when the JSON had no
(non-null) `Position` field: modelled as `Option` of an association list. -/
structure Planet where
  Position : Option (List (String × ℚ))
  Seed : Int
  Name : String
  ResourceLocations : List (List (String × ℚ))
  TreeLocations : List (List (String × ℚ))
  BiomeType : Int
deriving DecidableEq

/-- Config from extras.go. `NumPods` is a Go `int`, so it is `Int` here;
the scan loop runs `max NumPods 0` times. -/
structure Config where
  Hosts : List String
  StartPort : Int
  PortStep : Int
  NumPods : Int
  AuthPass : String
  Delimiter : String
  TimeoutSec : Int
deriving DecidableEq

/-- The Discover registry from extras.go (the mutex is not part of the
functional model; merging is already serialized in `mergeAll`). -/
structure Discover where
  Config : Config
  Results : List PodResult
  Planets : List (String × PlanetRecord)
  Cubes : List (String × String)
deriving DecidableEq

/-- NewDiscover from extras.go: empty registry around a config. -/
def NewDiscover (cfg : Config) : Discover :=
  { Config := cfg, Results := [], Planets := [], Cubes := [] }

/-- Go map read `m[k]` on an association-list map (keys are unique when the
map is built with `mapInsert`). -/
def mapGet? {α : Type} : List (String × α) → String → Option α
  | [], _ => none
  | kv :: t, k => if kv.1 = k then some kv.2 else mapGet? t k

/-- Go map write `m[k] = v` on an association-list map: overwrite the entry
for `k` if present, otherwise append it. -/
def mapInsert {α : Type} : List (String × α) → String → α → List (String × α)
  | [], k, v => [(k, v)]
  | kv :: t, k, v => if kv.1 = k then (k, v) :: t else kv :: mapInsert t k v

-- --- Wire protocol codec (pod.go helpers) ---

/-- sendMsg from pod.go writes `msg + delim` to the connection: this is the
byte sequence put on the wire (a failing write is modelled by the send-error
flags of `PodConn`). -/
def sendMsg (msg delim : String) : String := msg ++ delim

/-- Go `strings.Contains(hay, needle)`: `needle` occurs as a contiguous
substring of `hay`. -/
def containsSub (hay needle : List Char) : Bool :=
  match hay with
  | [] => needle.isEmpty
  | _ :: t => needle.isPrefixOf hay || containsSub t needle

/-- Go `bufio.Reader.ReadString(c)` on the remaining stream: returns the
chunk up to and including the first `c` together with the rest of the
stream; if `c` never occurs the whole stream is returned (the chunk then
does not end in `c`, which is how the model signals `io.EOF`). -/
def readString (c : Char) : List Char → List Char × List Char
  | [] => ([], [])
  | x :: xs =>
    if x = c then ([x], xs)
    else
      let r := readString c xs
      (x :: r.1, r.2)

/-- The accumulation loop of readMsg (pod.go): keep calling `ReadString` on
the last delimiter byte, appending each chunk to the buffer, until the
buffer contains the delimiter or end-of-stream is reached. `fuel` bounds the
iteration count; `input.length + 1` is always enough because every
continuing iteration consumes at least one input character. -/
def readMsgLoop (lastByte : Char) (delim : List Char) :
    Nat → List Char → List Char → List Char
  | 0, buf, _ => buf
  | fuel + 1, buf, input =>
    let r := readString lastByte input
    let buf2 := buf ++ r.1
    if containsSub buf2 delim then buf2
    else if r.1.getLast? ≠ some lastByte then buf2
    else readMsgLoop lastByte delim fuel buf2 r.2

/-- Go `strings.ReplaceAll(s, pat, "")` scanning left to right over
non-overlapping occurrences, with explicit fuel (`s.length` always
suffices: every iteration consumes at least one character). An empty `pat`
leaves `s` unchanged, as Go's `Replace` with `old = ""` and `new = ""`
does. -/
def replaceAllEmpty (pat : List Char) : Nat → List Char → List Char
  | _, [] => []
  | 0, s => s
  | fuel + 1, c :: rest =>
    if pat.isPrefixOf (c :: rest) && !pat.isEmpty then
      replaceAllEmpty pat fuel (rest.drop (pat.length - 1))
    else
      c :: replaceAllEmpty pat fuel rest

/-- Go `strings.ReplaceAll(s, pat, "")`: remove every (non-overlapping,
left-to-right) occurrence of `pat` from `s`. -/
def removeAll (pat s : List Char) : List Char := replaceAllEmpty pat s.length s

/-- Go `unicode.IsSpace`: the White_Space code points. -/
def isGoSpace (c : Char) : Bool :=
  c = ' ' || c = '\t' || c = '\n' || c = '\x0B' || c = '\x0C' || c = '\r' ||
  c = '\u0085' || c = '\u00A0' || c = '\u1680' ||
  ('\u2000' ≤ c && c ≤ '\u200A') ||
  c = '\u2028' || c = '\u2029' || c = '\u202F' || c = '\u205F' || c = '\u3000'

/-- Go `strings.TrimSpace`: drop leading and trailing whitespace. -/
def trimSpace (s : List Char) : List Char :=
  ((s.dropWhile isGoSpace).reverse.dropWhile isGoSpace).reverse

/-- The final transformation readMsg (pod.go) applies to the accumulated
buffer: remove every occurrence of the delimiter, then trim whitespace. -/
def readMsgDecode (full delim : List Char) : List Char :=
  trimSpace (removeAll delim full)

/-- readMsg from pod.go over an input stream (the bytes available before
end-of-stream). The Go code evaluates `delim[len(delim)-1]` before any
comparison; the guarded indexing `delim.get? (delim.length - 1)` models it,
with `none` (the Go runtime panic for an out-of-range index) as the error
branch. -/
def readMsg (input delim : List Char) : Option (List Char) :=
  match delim.get? (delim.length - 1) with
  | none => none
  | some lastByte =>
    some (readMsgDecode (readMsgLoop lastByte delim (input.length + 1) [] input) delim)

-- --- Tolerant JSON helpers (pod.go) ---

/-- The string projection used by toStringSlice's type switch. -/
def jsonAsString : JsonValue → Option String
  | .str s => some s
  | _ => none

/-- toStringSlice from pod.go: if the value is a JSON list, keep its string
elements in order (non-strings silently dropped); otherwise the empty
(`nil`) slice. The argument is `cubesData["cubes"]`, which is `none` when
the key is absent. -/
def toStringSlice : Option JsonValue → List String
  | some (.arr elems) => elems.filterMap jsonAsString
  | _ => []

/-- Go map read `cubesData[key]` on a decoded JSON object. -/
def jsonLookup (fields : List (String × JsonValue)) (key : String) : Option JsonValue :=
  (fields.find? fun kv => kv.1 == key).map fun kv => kv.2

/-- Membership probe for a decoded `map[string]float64`. -/
def posFind (pos : List (String × ℚ)) (key : String) : Option ℚ :=
  (pos.find? fun kv => kv.1 == key).map fun kv => kv.2

/-- Go map read `pos[key]` on a decoded `map[string]float64`: missing keys
yield the zero value `0`. -/
def posLookup (pos : List (String × ℚ)) (key : String) : ℚ :=
  (posFind pos key).getD 0

-- --- Pod client (ScanPod, pod.go) ---

/-- The behaviour of the remote side of one TCP connection, at the decoded
level: whether dialing fails (with the transport error's message), whether
each framed write fails, the de-framed auth response string, and the
`json.Unmarshal` outcomes for the cube and planet responses (`none` models
a JSON parse error). -/
structure PodConn where
  dialErr : Option String
  authSendErr : Bool
  authResp : String
  cubeSendErr : Bool
  cubeResp : Option (List (String × JsonValue))
  planetSendErr : Bool
  planetResp : Option (List (String × List Planet))

/-- ScanPod from pod.go: drive one connection through
connect → auth → cube list → planet list, short-circuiting on the first
failure with the corresponding error string. -/
def ScanPod (conn : PodConn) (host : String) (port : Int) : PodResult :=
  match conn.dialErr with
  | some e =>
    { Host := host, Port := port, Success := false, Error := e, Cubes := [], Planets := [] }
  | none =>
    if conn.authSendErr then
      { Host := host, Port := port, Success := false, Error := "Auth failed",
        Cubes := [], Planets := [] }
    else if !containsSub conn.authResp.data "auth_success".data then
      { Host := host, Port := port, Success := false, Error := "Bad password",
        Cubes := [], Planets := [] }
    else if conn.cubeSendErr then
      { Host := host, Port := port, Success := false, Error := "Cube req fail",
        Cubes := [], Planets := [] }
    else
      match conn.cubeResp with
      | none =>
        { Host := host, Port := port, Success := false, Error := "Cube parse fail",
          Cubes := [], Planets := [] }
      | some cubesData =>
        let cubes := toStringSlice (jsonLookup cubesData "cubes")
        if conn.planetSendErr then
          { Host := host, Port := port, Success := false, Error := "Planet req fail",
            Cubes := [], Planets := [] }
        else
          match conn.planetResp with
          | none =>
            { Host := host, Port := port, Success := false, Error := "Planet parse fail",
              Cubes := [], Planets := [] }
          | some planetsData =>
            let planetRecords := planetsData.flatMap fun group =>
              group.2.map fun p =>
                { Name := p.Name
                  Coordinates :=
                    match p.Position with
                    | none => (0, 0, 0)
                    | some pos => (posLookup pos "x", posLookup pos "y", posLookup pos "z")
                  Host := host
                  Port := port }
            { Host := host, Port := port, Success := true, Error := "",
              Cubes := cubes, Planets := planetRecords }

-- --- Scan orchestrator (ScanAll, extras.go) ---

/-- The (host, port) pairs ScanAll dials: for each host, pod indices
`0 ≤ i < NumPods` with port `StartPort + i * PortStep`. -/
def scanTargets (cfg : Config) : List (String × Int) :=
  cfg.Hosts.flatMap fun host =>
    (List.range cfg.NumPods.toNat).map fun i =>
      (host, cfg.StartPort + Int.ofNat i * cfg.PortStep)

/-- The PodResults the goroutines of one scan pass put on the channel, in
launch order; `env` gives each (host, port) its connection behaviour. The
channel delivers them in an arbitrary order: theorems quantify over
permutations of this list. -/
def scanResults (env : String → Int → PodConn) (cfg : Config) : List PodResult :=
  (scanTargets cfg).map fun t => ScanPod (env t.1 t.2) t.1 t.2

/-- The body of ScanAll's merge loop (extras.go): append the result to the
log; if it succeeded, insert every planet by name and every cube by name. -/
def mergeResult (d : Discover) (r : PodResult) : Discover :=
  let d1 : Discover := { d with Results := d.Results ++ [r] }
  if r.Success then
    let d2 : Discover :=
      { d1 with Planets := r.Planets.foldl (fun m p => mapInsert m p.Name p) d1.Planets }
    { d2 with Cubes := r.Cubes.foldl (fun m c => mapInsert m c r.Host) d2.Cubes }
  else d1

/-- ScanAll's merge loop: drain the channel, merging one result at a time
under the registry lock. -/
def mergeAll (d : Discover) (rs : List PodResult) : Discover :=
  rs.foldl mergeResult d

/-- ScanAll from extras.go, at one particular channel arrival order (the
launch order); the theorems below quantify over all arrival orders via
`mergeAll` and `List.Perm`. -/
def ScanAll (env : String → Int → PodConn) (d : Discover) : Discover :=
  mergeAll d (scanResults env d.Config)

-- --- Derived utilities (extras.go) ---

/-- Go `math.MaxFloat64` as an exact rational. -/
def maxFloat64 : ℚ := (2 - 2 ^ (-(52 : ℤ))) * 2 ^ (1023 : ℕ)

/-- FindClosestPlanet from extras.go: fold over the planet map tracking the
least distance seen so far, starting from `("", math.MaxFloat64)`. -/
def FindClosestPlanet (d : Discover) (point : ℚ × ℚ × ℚ) : String × ℚ :=
  d.Planets.foldl
    (fun acc entry =>
      let planet := entry.2
      let dx := planet.Coordinates.1 - point.1
      let dy := planet.Coordinates.2.1 - point.2.1
      let dz := planet.Coordinates.2.2 - point.2.2
      let dist := Rat.sqrt (dx * dx + dy * dy + dz * dz)
      if dist < acc.2 then (entry.1, dist) else acc)
    ("", maxFloat64)

-- --- Basic lemmas about the embedding ---

/-- Every branch of ScanPod stamps the scanned host and port. -/
theorem scanPod_host_port (conn : PodConn) (host : String) (port : Int) :
    (ScanPod conn host port).Host = host ∧ (ScanPod conn host port).Port = port := by
  unfold ScanPod
  rcases conn.dialErr with _ | e
  · simp only []
    split
    · exact ⟨rfl, rfl⟩
    · split
      · exact ⟨rfl, rfl⟩
      · split
        · exact ⟨rfl, rfl⟩
        · rcases conn.cubeResp with _ | cd
          · exact ⟨rfl, rfl⟩
          · simp only []
            split
            · exact ⟨rfl, rfl⟩
            · rcases conn.planetResp with _ | pd
              · exact ⟨rfl, rfl⟩
              · exact ⟨rfl, rfl⟩
  · exact ⟨rfl, rfl⟩

/-- mergeResult always appends exactly the merged result to the log. -/
theorem mergeResult_results (d : Discover) (r : PodResult) :
    (mergeResult d r).Results = d.Results ++ [r] := by
  unfold mergeResult
  split <;> rfl

/-- mergeResult leaves the config untouched. -/
theorem mergeResult_config (d : Discover) (r : PodResult) :
    (mergeResult d r).Config = d.Config := by
  unfold mergeResult
  split <;> rfl

/-- The merge loop appends the drained results, in arrival order, to the log. -/
theorem mergeAll_results (d : Discover) (rs : List PodResult) :
    (mergeAll d rs).Results = d.Results ++ rs := by
  induction rs generalizing d with
  | nil => simp [mergeAll]
  | cons r t ih =>
    simp only [mergeAll, List.foldl_cons]
    rw [show List.foldl mergeResult (mergeResult d r) t = mergeAll (mergeResult d r) t from rfl,
      ih, mergeResult_results, List.append_assoc, List.singleton_append]

/-- Length of a flatMap whose pieces all have the same length. -/
theorem length_flatMap_const {α β : Type} (l : List α) (f : α → List β) (k : Nat)
    (hf : ∀ a, (f a).length = k) : (l.flatMap f).length = l.length * k := by
  induction l with
  | nil => simp
  | cons a t ih => simp [hf, ih, Nat.succ_mul, Nat.add_comm]

/-- ScanAll dials exactly `|Hosts| * max NumPods 0` targets. -/
theorem scanTargets_length (cfg : Config) :
    (scanTargets cfg).length = cfg.Hosts.length * cfg.NumPods.toNat := by
  unfold scanTargets
  exact length_flatMap_const _ _ _ (fun a => by rw [List.length_map, List.length_range])

/-- The launch-order results project back onto the dialed targets. -/
theorem scanResults_host_port (env : String → Int → PodConn) (cfg : Config) :
    (scanResults env cfg).map (fun r => (r.Host, r.Port)) = scanTargets cfg := by
  unfold scanResults
  rw [List.map_map]
  have : ∀ t ∈ scanTargets cfg,
      ((fun r => (r.Host, r.Port)) ∘ fun t => ScanPod (env t.1 t.2) t.1 t.2) t = id t := by
    intro t _
    have h := scanPod_host_port (env t.1 t.2) t.1 t.2
    simp [h.1, h.2]
  rw [List.map_congr_left this, List.map_id]

-- --- C1 ---

/-- C1: For every config with `NumPods = k` and `h` hosts, ScanAll records
exactly `k*h` PodResults in the registry's result list — one per
(host, pod-index) pair, with the port for pod index `i` equal to
`StartPort + i*PortStep` — regardless of whether the individual attempts
succeed or fail (both the pod behaviours `env` and the channel arrival
order `rs` are arbitrary). -/
theorem scanAll_records_k_times_h_results
    (env : String → Int → PodConn) (cfg : Config) (d : Discover)
    (rs : List PodResult) (k h : Nat)
    (hperm : rs.Perm (scanResults env cfg))
    (hk : cfg.NumPods = Int.ofNat k) (hh : cfg.Hosts.length = h) :
    (mergeAll d rs).Results.length = d.Results.length + k * h ∧
    (((mergeAll d rs).Results.drop d.Results.length).map fun r => (r.Host, r.Port)).Perm
      (scanTargets cfg) ∧
    (∀ host ∈ cfg.Hosts, ∀ i : Nat, i < k →
      (host, cfg.StartPort + Int.ofNat i * cfg.PortStep) ∈ scanTargets cfg) := by
  have hres := mergeAll_results d rs
  have hlen : rs.length = (scanResults env cfg).length := hperm.length_eq
  have hsr : (scanResults env cfg).length = (scanTargets cfg).length := by
    unfold scanResults
    rw [List.length_map]
  have htn : cfg.NumPods.toNat = k := by rw [hk]; rfl
  refine ⟨?_, ?_, ?_⟩
  · rw [hres, List.length_append, hlen, hsr, scanTargets_length, htn, hh, Nat.mul_comm]
  · rw [hres, List.drop_left]
    have hmap := hperm.map (fun r => (r.Host, r.Port))
    rwa [scanResults_host_port] at hmap
  · intro host hmem i hik
    unfold scanTargets
    refine List.mem_flatMap.mpr ⟨host, hmem, List.mem_map.mpr ⟨i, ?_, rfl⟩⟩
    exact List.mem_range.mpr (by rw [htn]; exact hik)

/-- A connection behaviour whose dial fails. -/
def connRefused : PodConn :=
  { dialErr := some "connection refused", authSendErr := false, authResp := "",
    cubeSendErr := false, cubeResp := none, planetSendErr := false, planetResp := none }

/-- The environment where every pod refuses the connection. -/
def envRefused : String → Int → PodConn := fun _ _ => connRefused

/-- A one-host one-pod configuration. -/
def cfgOne : Config :=
  { Hosts := ["h1"], StartPort := 14000, PortStep := 3, NumPods := 1,
    AuthPass := "pw", Delimiter := "<D>", TimeoutSec := 10 }

/-- Witness for C1 at a concrete one-host one-pod scan whose dial fails. -/
theorem scanAll_records_k_times_h_results_witness :
    (mergeAll (NewDiscover cfgOne) (scanResults envRefused cfgOne)).Results.length
        = (NewDiscover cfgOne).Results.length + 1 * 1 ∧
    ((((mergeAll (NewDiscover cfgOne) (scanResults envRefused cfgOne)).Results.drop
        (NewDiscover cfgOne).Results.length).map fun r => (r.Host, r.Port)).Perm
      (scanTargets cfgOne)) ∧
    (∀ host ∈ cfgOne.Hosts, ∀ i : Nat, i < 1 →
      (host, cfgOne.StartPort + Int.ofNat i * cfgOne.PortStep) ∈ scanTargets cfgOne) :=
  scanAll_records_k_times_h_results envRefused cfgOne (NewDiscover cfgOne)
    (scanResults envRefused cfgOne) 1 1 (List.Perm.refl _) rfl rfl

-- --- Association-list map lemmas ---

/-- Reading back the key just written. -/
theorem mapGet_insert_self {α : Type} (m : List (String × α)) (k : String) (v : α) :
    mapGet? (mapInsert m k v) k = some v := by
  induction m with
  | nil => simp [mapInsert, mapGet?]
  | cons kv t ih =>
    by_cases h : kv.1 = k
    · simp [mapInsert, h, mapGet?]
    · simp [mapInsert, h, mapGet?, ih]

/-- Writing one key does not change any other key. -/
theorem mapGet_insert_ne {α : Type} (m : List (String × α)) (k n : String) (v : α)
    (hne : n ≠ k) : mapGet? (mapInsert m k v) n = mapGet? m n := by
  induction m with
  | nil => simp [mapInsert, mapGet?, Ne.symm hne]
  | cons kv t ih =>
    by_cases h : kv.1 = k
    · subst h
      simp [mapInsert, mapGet?, Ne.symm hne]
    · simp [mapInsert, h, mapGet?, ih]

/-- A map write never erases a present key. -/
theorem mapGet_insert_isSome {α : Type} (m : List (String × α)) (k n : String) (v : α)
    (h : (mapGet? m n).isSome) : (mapGet? (mapInsert m k v) n).isSome := by
  by_cases hn : n = k
  · subst hn
    rw [mapGet_insert_self]
    rfl
  · rw [mapGet_insert_ne _ _ _ _ hn]
    exact h

/-- Folding planet inserts never erases a present key. -/
theorem foldl_insert_name_isSome (ps : List PlanetRecord)
    (m : List (String × PlanetRecord)) (n : String)
    (h : (mapGet? m n).isSome) :
    (mapGet? (ps.foldl (fun m p => mapInsert m p.Name p) m) n).isSome := by
  induction ps generalizing m with
  | nil => exact h
  | cons p t ih => exact ih _ (mapGet_insert_isSome _ _ _ _ h)

/-- Folding cube inserts never erases a present key. -/
theorem foldl_insert_cube_isSome (cs : List String) (host : String)
    (m : List (String × String)) (n : String)
    (h : (mapGet? m n).isSome) :
    (mapGet? (cs.foldl (fun m c => mapInsert m c host) m) n).isSome := by
  induction cs generalizing m with
  | nil => exact h
  | cons c t ih => exact ih _ (mapGet_insert_isSome _ _ _ _ h)

/-- The planets a result contributes to the registry: all of them when it
succeeded, none otherwise. -/
def planetsOf (r : PodResult) : List PlanetRecord :=
  if r.Success then r.Planets else []

/-- All planet records contributed by a list of results, in merge order. -/
def scanPlanets (rs : List PodResult) : List PlanetRecord :=
  rs.flatMap planetsOf

/-- mergeResult updates the planet map by folding inserts over the result's
contributed planets. -/
theorem mergeResult_planets (d : Discover) (r : PodResult) :
    (mergeResult d r).Planets =
      (planetsOf r).foldl (fun m p => mapInsert m p.Name p) d.Planets := by
  unfold mergeResult planetsOf
  split <;> rfl

/-- mergeResult updates the cube map by folding inserts over the result's
cubes (when it succeeded). -/
theorem mergeResult_cubes (d : Discover) (r : PodResult) :
    (mergeResult d r).Cubes =
      if r.Success then r.Cubes.foldl (fun m c => mapInsert m c r.Host) d.Cubes
      else d.Cubes := by
  unfold mergeResult
  split <;> rfl

/-- Last-write-wins characterization of one result's planet fold: the final
value at `n` is the last record named `n` in the fold, or the old value. -/
theorem foldl_insert_planets_lookup (ps : List PlanetRecord)
    (m : List (String × PlanetRecord)) (n : String) :
    mapGet? (ps.foldl (fun m p => mapInsert m p.Name p) m) n =
      (ps.reverse.find? (fun p => p.Name == n)).or (mapGet? m n) := by
  induction ps generalizing m with
  | nil => simp
  | cons p t ih =>
    simp only [List.foldl_cons, List.reverse_cons, List.find?_append]
    rw [ih, Option.or_assoc]
    congr 1
    by_cases hn : p.Name = n
    · have hb : (p.Name == n) = true := beq_iff_eq.mpr hn
      have hf : List.find? (fun p => p.Name == n) [p] = some p := by
        simp [List.find?, hb]
      rw [hf]
      exact (hn ▸ mapGet_insert_self m p.Name p)
    · have hb : (p.Name == n) = false := beq_eq_false_iff_ne.mpr hn
      have hf : List.find? (fun p => p.Name == n) [p] = none := by
        simp [List.find?, hb]
      rw [hf, mapGet_insert_ne _ _ _ _ (fun h => hn h.symm)]
      rfl

/-- Last-write-wins characterization of the whole merge loop for planets:
the final planet map at `n` holds the last record named `n` contributed by
any successful result, in merge order, or else the pre-existing entry. -/
theorem mergeAll_planets_lookup (rs : List PodResult) (d : Discover) (n : String) :
    mapGet? (mergeAll d rs).Planets n =
      ((scanPlanets rs).reverse.find? (fun p => p.Name == n)).or (mapGet? d.Planets n) := by
  induction rs generalizing d with
  | nil => simp [mergeAll, scanPlanets]
  | cons r t ih =>
    show mapGet? (mergeAll (mergeResult d r) t).Planets n = _
    rw [ih, mergeResult_planets, foldl_insert_planets_lookup]
    rw [show scanPlanets (r :: t) = planetsOf r ++ scanPlanets t from rfl]
    rw [List.reverse_append, List.find?_append, Option.or_assoc]

-- --- C8 ---

/-- C8: the merge loop never removes anything from the registry: the result
log keeps its prefix (it becomes the old log plus the drained results, so a
later pass on the same registry keeps all earlier state), and every planet
name and cube name present before is still present (possibly overwritten)
after. `d` and `rs` are arbitrary, so this covers repeated ScanAll passes
in any arrival order. -/
theorem scanAll_never_removes (d : Discover) (rs : List PodResult) :
    (mergeAll d rs).Results = d.Results ++ rs ∧
    (∀ n, (mapGet? d.Planets n).isSome → (mapGet? (mergeAll d rs).Planets n).isSome) ∧
    (∀ n, (mapGet? d.Cubes n).isSome → (mapGet? (mergeAll d rs).Cubes n).isSome) := by
  refine ⟨mergeAll_results d rs, ?_, ?_⟩
  · intro n
    induction rs generalizing d with
    | nil => exact fun h => h
    | cons r t ih =>
      intro h
      show (mapGet? (mergeAll (mergeResult d r) t).Planets n).isSome
      apply ih
      rw [mergeResult_planets]
      exact foldl_insert_name_isSome _ _ _ h
  · intro n
    induction rs generalizing d with
    | nil => exact fun h => h
    | cons r t ih =>
      intro h
      show (mapGet? (mergeAll (mergeResult d r) t).Cubes n).isSome
      apply ih
      rw [mergeResult_cubes]
      split
      · exact foldl_insert_cube_isSome _ _ _ _ h
      · exact h

/-- A failed scan attempt, as logged. -/
def resFailW : PodResult :=
  { Host := "h1", Port := 14000, Success := false, Error := "connection refused",
    Cubes := [], Planets := [] }

/-- A planet already in the registry before the pass. -/
def planetP0 : PlanetRecord :=
  { Name := "P0", Coordinates := (1, 2, 3), Host := "h0", Port := 9 }

/-- A registry that already has a logged result, a planet and a cube. -/
def dPre : Discover :=
  { Config := cfgOne, Results := [resFailW], Planets := [("P0", planetP0)],
    Cubes := [("c0", "h0")] }

/-- A successful result contributing one cube and one planet. -/
def resOkW : PodResult :=
  { Host := "h1", Port := 14000, Success := true, Error := "",
    Cubes := ["c1"],
    Planets := [{ Name := "P1", Coordinates := (4, 5, 6), Host := "h1", Port := 14000 }] }

/-- Witness for C8: merging a successful result into a non-empty registry
keeps the old log entry, planet and cube. -/
theorem scanAll_never_removes_witness :
    (mergeAll dPre [resOkW]).Results = dPre.Results ++ [resOkW] ∧
    (mapGet? (mergeAll dPre [resOkW]).Planets "P0").isSome ∧
    (mapGet? (mergeAll dPre [resOkW]).Cubes "c0").isSome :=
  ⟨(scanAll_never_removes dPre [resOkW]).1,
   (scanAll_never_removes dPre [resOkW]).2.1 "P0" (by decide),
   (scanAll_never_removes dPre [resOkW]).2.2 "c0" (by decide)⟩

-- --- C4 ---

/-- C4: an attempt whose auth response does not contain "auth_success"
(having connected and written the secret successfully) returns
`Success = false`, error exactly "Bad password", empty cube and planet
lists, and merging it leaves the planet and cube maps unchanged (only the
log grows). -/
theorem scanPod_bad_password (conn : PodConn) (host : String) (port : Int) (d : Discover)
    (hdial : conn.dialErr = none) (hsend : conn.authSendErr = false)
    (hauth : containsSub conn.authResp.data "auth_success".data = false) :
    ScanPod conn host port =
      { Host := host, Port := port, Success := false, Error := "Bad password",
        Cubes := [], Planets := [] } ∧
    (mergeResult d (ScanPod conn host port)).Planets = d.Planets ∧
    (mergeResult d (ScanPod conn host port)).Cubes = d.Cubes ∧
    (mergeResult d (ScanPod conn host port)).Results
        = d.Results ++ [ScanPod conn host port] := by
  have hr : ScanPod conn host port =
      { Host := host, Port := port, Success := false, Error := "Bad password",
        Cubes := [], Planets := [] } := by
    unfold ScanPod
    rw [hdial]
    simp [hsend, hauth]
  refine ⟨hr, ?_, ?_, mergeResult_results d _⟩
  · rw [mergeResult_planets, hr]
    rfl
  · rw [mergeResult_cubes, hr]
    simp

/-- A connection whose auth response lacks "auth_success". -/
def connBadPw : PodConn :=
  { dialErr := none, authSendErr := false, authResp := "denied",
    cubeSendErr := false, cubeResp := none, planetSendErr := false, planetResp := none }

/-- Witness for C4 at a concrete rejected handshake. -/
theorem scanPod_bad_password_witness :
    ScanPod connBadPw "h1" 14000 =
      { Host := "h1", Port := 14000, Success := false, Error := "Bad password",
        Cubes := [], Planets := [] } ∧
    (mergeResult dPre (ScanPod connBadPw "h1" 14000)).Planets = dPre.Planets ∧
    (mergeResult dPre (ScanPod connBadPw "h1" 14000)).Cubes = dPre.Cubes ∧
    (mergeResult dPre (ScanPod connBadPw "h1" 14000)).Results
        = dPre.Results ++ [ScanPod connBadPw "h1" 14000] :=
  scanPod_bad_password connBadPw "h1" 14000 dPre rfl rfl (by decide)

-- --- C5 ---

/-- C5: if two successful results each contain a planet with the same name
(and different coordinates), then after the merge loop completes — in any
arrival order `rs` containing them, and with `p1`, `p2` the only records of
that name contributed — the planet map holds, for that name, exactly one of
the two complete records: never a field-wise mixture and never no entry. -/
theorem scanAll_duplicate_name_one_of_two
    (d : Discover) (rs : List PodResult) (r1 r2 : PodResult)
    (p1 p2 : PlanetRecord) (n : String)
    (h1 : r1 ∈ rs) (h2 : r2 ∈ rs)
    (hs1 : r1.Success = true) (hs2 : r2.Success = true)
    (hp1 : p1 ∈ r1.Planets) (hp2 : p2 ∈ r2.Planets)
    (hn1 : p1.Name = n) (hn2 : p2.Name = n)
    (hdiff : p1.Coordinates ≠ p2.Coordinates)
    (honly : ∀ q ∈ scanPlanets rs, q.Name = n → q = p1 ∨ q = p2) :
    mapGet? (mergeAll d rs).Planets n = some p1 ∨
    mapGet? (mergeAll d rs).Planets n = some p2 := by
  have hmem : p1 ∈ scanPlanets rs := by
    unfold scanPlanets
    refine List.mem_flatMap.mpr ⟨r1, h1, ?_⟩
    unfold planetsOf
    rw [hs1]
    simpa using hp1
  have hfind : ((scanPlanets rs).reverse.find? (fun p => p.Name == n)).isSome := by
    rw [List.find?_isSome]
    exact ⟨p1, List.mem_reverse.mpr hmem, beq_iff_eq.mpr hn1⟩
  obtain ⟨q, hq⟩ := Option.isSome_iff_exists.mp hfind
  have hqmem : q ∈ scanPlanets rs := List.mem_reverse.mp (List.mem_of_find?_eq_some hq)
  have hpred := List.find?_some hq
  have hqname : q.Name = n := by simpa using hpred
  rcases honly q hqmem hqname with h | h
  · left
    rw [mergeAll_planets_lookup, hq, h]
    rfl
  · right
    rw [mergeAll_planets_lookup, hq, h]
    rfl

/-- First successful result reporting planet "P1". -/
def resDup1 : PodResult :=
  { Host := "h1", Port := 14000, Success := true, Error := "", Cubes := [],
    Planets := [{ Name := "P1", Coordinates := (1, 2, 3), Host := "h1", Port := 14000 }] }

/-- Second successful result reporting planet "P1" with other coordinates. -/
def resDup2 : PodResult :=
  { Host := "h2", Port := 14000, Success := true, Error := "", Cubes := [],
    Planets := [{ Name := "P1", Coordinates := (7, 8, 9), Host := "h2", Port := 14000 }] }

/-- Witness for C5: two pods report "P1" with different coordinates; the
registry ends with one of the two complete records. -/
theorem scanAll_duplicate_name_one_of_two_witness :
    mapGet? (mergeAll (NewDiscover cfgOne) [resDup1, resDup2]).Planets "P1"
        = some { Name := "P1", Coordinates := (1, 2, 3), Host := "h1", Port := 14000 } ∨
    mapGet? (mergeAll (NewDiscover cfgOne) [resDup1, resDup2]).Planets "P1"
        = some { Name := "P1", Coordinates := (7, 8, 9), Host := "h2", Port := 14000 } :=
  scanAll_duplicate_name_one_of_two (NewDiscover cfgOne) [resDup1, resDup2]
    resDup1 resDup2
    { Name := "P1", Coordinates := (1, 2, 3), Host := "h1", Port := 14000 }
    { Name := "P1", Coordinates := (7, 8, 9), Host := "h2", Port := 14000 }
    "P1" (by decide) (by decide) rfl rfl (by decide) (by decide) rfl rfl
    (by decide) (by decide)

-- --- C7 ---

/-- C7: for every PodResult returned by ScanPod, the error string is
populated iff the attempt failed. The only environment assumption is that a
failing dial reports a non-empty transport error message (Go's net errors
always do). -/
theorem scanPod_error_iff_failure (conn : PodConn) (host : String) (port : Int)
    (hdial : ∀ e, conn.dialErr = some e → e ≠ "") :
    ((ScanPod conn host port).Success = true → (ScanPod conn host port).Error = "") ∧
    ((ScanPod conn host port).Success = false → (ScanPod conn host port).Error ≠ "") := by
  rcases hde : conn.dialErr with _ | e
  · rcases hsend : conn.authSendErr with _ | _
    · rcases hauth : containsSub conn.authResp.data "auth_success".data with _ | _
      · constructor <;> simp [ScanPod, hde, hsend, hauth]
      · rcases hcsend : conn.cubeSendErr with _ | _
        · rcases hcd : conn.cubeResp with _ | cd
          · constructor <;> simp [ScanPod, hde, hsend, hauth, hcsend, hcd]
          · rcases hpsend : conn.planetSendErr with _ | _
            · rcases hpd : conn.planetResp with _ | pd
              · constructor <;> simp [ScanPod, hde, hsend, hauth, hcsend, hcd, hpsend, hpd]
              · constructor <;> simp [ScanPod, hde, hsend, hauth, hcsend, hcd, hpsend, hpd]
            · constructor <;> simp [ScanPod, hde, hsend, hauth, hcsend, hcd, hpsend]
        · constructor <;> simp [ScanPod, hde, hsend, hauth, hcsend]
    · constructor <;> simp [ScanPod, hde, hsend]
  · constructor
    · intro h
      exfalso
      revert h
      simp [ScanPod, hde]
    · intro _
      have he : (ScanPod conn host port).Error = e := by simp [ScanPod, hde]
      rw [he]
      exact hdial e hde

/-- The decoded planet as served by the witness pod. -/
def planetWire : Planet :=
  { Position := some [("x", 1), ("y", 2), ("z", 3)], Seed := 0, Name := "P1",
    ResourceLocations := [], TreeLocations := [], BiomeType := 0 }

/-- A fully successful connection behaviour: auth accepted, cubes decode to
["a","b"], planets decode to one group with one planet. -/
def connOkW : PodConn :=
  { dialErr := none, authSendErr := false, authResp := "auth_success",
    cubeSendErr := false,
    cubeResp := some [("cubes", JsonValue.arr [JsonValue.str "a", JsonValue.str "b"])],
    planetSendErr := false, planetResp := some [("g1", [planetWire])] }

/-- Witness for C7 at a concrete fully successful attempt. -/
theorem scanPod_error_iff_failure_witness :
    ((ScanPod connOkW "h1" 14000).Success = true → (ScanPod connOkW "h1" 14000).Error = "") ∧
    ((ScanPod connOkW "h1" 14000).Success = false →
      (ScanPod connOkW "h1" 14000).Error ≠ "") :=
  scanPod_error_iff_failure connOkW "h1" 14000 (fun _ he => nomatch he)

-- --- C2 ---

/-- C2: when the planet response decodes to a single group holding a single
planet object with a position map, ScanPod succeeds and produces exactly
one PlanetRecord carrying the planet's name, the coordinates looked up at
"x", "y", "z", and the scanning host and port (the payload carries no host
data at all); an axis missing from the position map defaults to 0, an axis
present yields its numeric value. -/
theorem scanPod_planet_decoding
    (conn : PodConn) (host : String) (port : Int)
    (g : String) (p : Planet) (pos : List (String × ℚ)) (cd : List (String × JsonValue))
    (hdial : conn.dialErr = none) (hsend : conn.authSendErr = false)
    (hauth : containsSub conn.authResp.data "auth_success".data = true)
    (hcsend : conn.cubeSendErr = false) (hcd : conn.cubeResp = some cd)
    (hpsend : conn.planetSendErr = false)
    (hpd : conn.planetResp = some [(g, [p])])
    (hpos : p.Position = some pos) :
    (ScanPod conn host port).Success = true ∧
    (ScanPod conn host port).Planets =
      [{ Name := p.Name,
         Coordinates := (posLookup pos "x", posLookup pos "y", posLookup pos "z"),
         Host := host, Port := port }] ∧
    (∀ k q, posFind pos k = some q → posLookup pos k = q) ∧
    (∀ k, posFind pos k = none → posLookup pos k = 0) := by
  refine ⟨?_, ?_, ?_, ?_⟩
  · unfold ScanPod
    rw [hdial]
    simp [hsend, hauth, hcsend, hcd, hpsend, hpd]
  · unfold ScanPod
    rw [hdial]
    simp [hsend, hauth, hcsend, hcd, hpsend, hpd, hpos]
  · intro k q h
    unfold posLookup
    rw [h]
    rfl
  · intro k h
    unfold posLookup
    rw [h]
    rfl

/-- Witness for C2: the spec's example payload g1/[P1 at (1,2,3)] yields
one record named "P1" at (1,2,3) tagged with the scanning host and port. -/
theorem scanPod_planet_decoding_witness :
    (ScanPod connOkW "h1" 14000).Success = true ∧
    (ScanPod connOkW "h1" 14000).Planets =
      [{ Name := planetWire.Name,
         Coordinates := (posLookup [("x", 1), ("y", 2), ("z", 3)] "x",
                         posLookup [("x", 1), ("y", 2), ("z", 3)] "y",
                         posLookup [("x", 1), ("y", 2), ("z", 3)] "z"),
         Host := "h1", Port := 14000 }] ∧
    (∀ k q, posFind [("x", 1), ("y", 2), ("z", 3)] k = some q →
      posLookup [("x", 1), ("y", 2), ("z", 3)] k = q) ∧
    (∀ k, posFind [("x", 1), ("y", 2), ("z", 3)] k = none →
      posLookup [("x", 1), ("y", 2), ("z", 3)] k = 0) :=
  scanPod_planet_decoding connOkW "h1" 14000 "g1" planetWire
    [("x", 1), ("y", 2), ("z", 3)]
    [("cubes", JsonValue.arr [JsonValue.str "a", JsonValue.str "b"])]
    rfl rfl (by decide) rfl rfl rfl rfl rfl

-- --- C6 ---

/-- Good auth and a decodable cube list, but the planet response fails to
decode. -/
def connCubesNoPlanets : PodConn :=
  { dialErr := none, authSendErr := false, authResp := "auth_success",
    cubeSendErr := false,
    cubeResp := some [("cubes", JsonValue.arr [JsonValue.str "a", JsonValue.str "b"])],
    planetSendErr := false, planetResp := none }

/-- Counterexample to C6 as stated: this pod's cube-list response is a valid
JSON object whose "cubes" field is the list ["a","b"], yet the returned
PodResult.Cubes is not ["a","b"] — the cube list is only carried by the
final full-success result, and here the later planet decode fails. -/
theorem scanPod_cubes_claim_counterexample :
    jsonLookup [("cubes", JsonValue.arr [JsonValue.str "a", JsonValue.str "b"])] "cubes"
        = some (JsonValue.arr [JsonValue.str "a", JsonValue.str "b"]) ∧
    connCubesNoPlanets.cubeResp
        = some [("cubes", JsonValue.arr [JsonValue.str "a", JsonValue.str "b"])] ∧
    (ScanPod connCubesNoPlanets "h1" 14000).Cubes ≠ ["a", "b"] :=
  ⟨rfl, rfl, by decide⟩

/-- C6 amended: for every cube-list response that is a valid JSON object
whose "cubes" field is a list, and provided the subsequent planet request
and decode also succeed, PodResult.Cubes is exactly the string elements of
that list in order, with every non-string element silently dropped. -/
theorem scanPod_cubes_decoding
    (conn : PodConn) (host : String) (port : Int)
    (cd : List (String × JsonValue)) (xs : List JsonValue)
    (pd : List (String × List Planet))
    (hdial : conn.dialErr = none) (hsend : conn.authSendErr = false)
    (hauth : containsSub conn.authResp.data "auth_success".data = true)
    (hcsend : conn.cubeSendErr = false) (hcd : conn.cubeResp = some cd)
    (hcubes : jsonLookup cd "cubes" = some (JsonValue.arr xs))
    (hpsend : conn.planetSendErr = false) (hpd : conn.planetResp = some pd) :
    (ScanPod conn host port).Cubes = xs.filterMap jsonAsString := by
  unfold ScanPod
  rw [hdial]
  simp [hsend, hauth, hcsend, hcd, hpsend, hpd, hcubes, toStringSlice]

/-- Witness for C6 (amended): the spec's example response yields exactly
["a","b"]. -/
theorem scanPod_cubes_decoding_witness :
    (ScanPod connOkW "h1" 14000).Cubes =
      [JsonValue.str "a", JsonValue.str "b"].filterMap jsonAsString :=
  scanPod_cubes_decoding connOkW "h1" 14000
    [("cubes", JsonValue.arr [JsonValue.str "a", JsonValue.str "b"])]
    [JsonValue.str "a", JsonValue.str "b"] [("g1", [planetWire])]
    rfl rfl (by decide) rfl rfl rfl rfl rfl

-- --- C10 ---

/-- C10: with an empty planet map, FindClosestPlanet returns the empty
string and math.MaxFloat64 for every query point — no error, no failure. -/
theorem findClosestPlanet_empty (d : Discover) (point : ℚ × ℚ × ℚ)
    (h : d.Planets = []) :
    FindClosestPlanet d point = ("", maxFloat64) := by
  unfold FindClosestPlanet
  rw [h]
  rfl

/-- Witness for C10 on the freshly constructed (empty) registry. -/
theorem findClosestPlanet_empty_witness :
    FindClosestPlanet (NewDiscover cfgOne) (500, 1000, 0) = ("", maxFloat64) :=
  findClosestPlanet_empty (NewDiscover cfgOne) (500, 1000, 0) rfl

-- --- C9 ---

/-- C9: readMsg indexes the delimiter's last byte before any comparison:
for the empty delimiter the guarded indexing is out of bounds and readMsg
hits the error branch (the Go runtime panic), while for every non-empty
delimiter the indexing is in bounds and readMsg returns a message. -/
theorem readMsg_needs_nonempty_delim (input delim : List Char) :
    (delim = [] →
      delim.get? (delim.length - 1) = none ∧ readMsg input delim = none) ∧
    (delim ≠ [] →
      (delim.get? (delim.length - 1)).isSome ∧ (readMsg input delim).isSome) := by
  constructor
  · intro h
    subst h
    exact ⟨rfl, rfl⟩
  · intro h
    have hlen : 0 < delim.length := List.length_pos.mpr h
    have hnone : delim.get? (delim.length - 1) ≠ none := by
      rw [Ne, List.get?_eq_none]
      omega
    rcases hcase : delim.get? (delim.length - 1) with _ | lb
    · exact absurd hcase hnone
    · refine ⟨rfl, ?_⟩
      unfold readMsg
      rw [hcase]
      rfl

/-- Witness for C9: the empty delimiter hits the error branch on a concrete
stream, a non-empty delimiter yields a message on the same stream. -/
theorem readMsg_needs_nonempty_delim_witness :
    readMsg "hello<D>".data "".data = none ∧
    (readMsg "hello<D>".data "<D>".data).isSome :=
  ⟨((readMsg_needs_nonempty_delim "hello<D>".data "".data).1 rfl).2,
   ((readMsg_needs_nonempty_delim "hello<D>".data "<D>".data).2 (by decide)).2⟩

-- --- C3 ---

/-- Counterexample to C3 as stated: the payload "ab" does not contain the
delimiter "aba" as a substring, yet framing with sendMsg and de-framing
with readMsg's rule yields "ba", not the payload "ab": appending the
delimiter creates an occurrence spanning the payload/delimiter boundary
("ab"+"aba" = "ababa" has "aba" at offset 0), and its left-to-right removal
consumes part of the payload. -/
theorem frame_roundtrip_counterexample :
    containsSub "ab".data "aba".data = false ∧
    readMsgDecode (sendMsg "ab" "aba").data "aba".data ≠ trimSpace "ab".data ∧
    readMsgDecode (sendMsg "ab" "aba").data "aba".data = "ba".data :=
  ⟨by decide, by decide, by decide⟩

/-- Appending a text to a string concatenates the character data. -/
theorem sendMsg_data (msg delim : String) :
    (sendMsg msg delim).data = msg.data ++ delim.data := by
  unfold sendMsg
  cases msg
  cases delim
  rfl

/-- Left-to-right removal of `delim` from `p ++ delim` gives back `p`,
provided no occurrence of `delim` starts inside `p` (with enough fuel). -/
theorem replaceAllEmpty_append_self (delim : List Char) (hne : delim ≠ []) :
    ∀ (p : List Char) (fuel : Nat), (p ++ delim).length ≤ fuel →
    (∀ i, i < p.length → delim.isPrefixOf ((p ++ delim).drop i) = false) →
    replaceAllEmpty delim fuel (p ++ delim) = p := by
  intro p
  induction p with
  | nil =>
    intro fuel hfuel hocc
    rcases delim with _ | ⟨d, ds⟩
    · exact absurd rfl hne
    · rcases fuel with _ | f
      · simp at hfuel
      · show replaceAllEmpty (d :: ds) (f + 1) ([] ++ d :: ds) = []
        rw [List.nil_append]
        have hpref : (d :: ds).isPrefixOf (d :: ds) = true :=
          List.isPrefixOf_iff_prefix.mpr (List.prefix_refl _)
        simp only [replaceAllEmpty, hpref, List.isEmpty_cons, Bool.not_false, Bool.and_self,
          if_true]
        have hdrop : ds.drop ((d :: ds).length - 1) = [] := by
          simp [List.drop_length]
        rw [hdrop]
        cases f <;> rfl
  | cons c t ih =>
    intro fuel hfuel hocc
    rcases fuel with _ | f
    · simp at hfuel
    · have h0 : delim.isPrefixOf (c :: (t ++ delim)) = false := by
        have := hocc 0 (by simp)
        rwa [List.drop_zero, List.cons_append] at this
      show replaceAllEmpty delim (f + 1) (c :: (t ++ delim)) = c :: t
      simp only [replaceAllEmpty, h0, Bool.false_and, Bool.false_eq_true, if_false]
      congr 1
      apply ih
      · have : (c :: (t ++ delim)).length = (t ++ delim).length + 1 := by simp
        have hlen := hfuel
        rw [List.cons_append] at hlen
        simp only [List.length_cons] at hlen
        omega
      · intro i hi
        have := hocc (i + 1) (by simpa using Nat.succ_lt_succ hi)
        rwa [List.cons_append, List.drop_succ_cons] at this

/-- Go ReplaceAll of `delim` on `p ++ delim` gives back `p` under the same
no-interior-occurrence condition. -/
theorem removeAll_append_self (delim p : List Char) (hne : delim ≠ [])
    (hocc : ∀ i, i < p.length → delim.isPrefixOf ((p ++ delim).drop i) = false) :
    removeAll delim (p ++ delim) = p :=
  replaceAllEmpty_append_self delim hne p (p ++ delim).length (Nat.le_refl _) hocc

/-- C3 amended: framing a payload with sendMsg and de-framing with
readMsg's rule returns the payload with leading/trailing whitespace
stripped, for every non-empty delimiter and every payload such that no
occurrence of the delimiter in payload++delimiter starts before the
payload/delimiter boundary (the original claim's "payload does not contain
the delimiter" is not enough: an occurrence may span the boundary, as the
counterexample shows). -/
theorem frame_roundtrip (msg delim : String)
    (hne : delim.data ≠ [])
    (hocc : ∀ i, i < msg.data.length →
      delim.data.isPrefixOf ((msg.data ++ delim.data).drop i) = false) :
    readMsgDecode (sendMsg msg delim).data delim.data = trimSpace msg.data := by
  rw [sendMsg_data]
  unfold readMsgDecode
  rw [removeAll_append_self delim.data msg.data hne hocc]

/-- Witness for C3 (amended): framing " hi " with "<D>" and de-framing
returns "hi". -/
theorem frame_roundtrip_witness :
    readMsgDecode (sendMsg " hi " "<D>").data "<D>".data = trimSpace " hi ".data :=
  frame_roundtrip " hi " "<D>" (by decide) (by decide)
